import Mathlib

/-!
Verification of the u-proxy HTTP forwarding server.

The definitions below are a shallow embedding of the JavaScript sources
(`proxy.js`, `s.js` and the unnamed file `part_000`, which is the
`request`-library variant of the proxy that the spec follows).  Header
mappings are association lists of strings, request bodies are lists of
characters (the code treats bodies as uninterpreted byte buffers; the only
byte-sensitive operation, UTF-8 decoding before `JSON.parse`, is modelled
by `String.mk`), and the event-driven body reader is modelled as a fold
over the list of data chunks followed by a terminal event.
-/

namespace UProxy

/-- Outbound/inbound header mappings: association lists from header name to
value, mirroring a JavaScript plain object (keys are case-sensitive strings
with at most one entry per key; Node lowercases inbound header names before
the handlers run). -/
abbrev HMap := List (String × String)

/-- Reading a key from a header object (`headers[k]`). -/
def hGet (m : HMap) (k : String) : Option String :=
  match m with
  | [] => none
  | p :: t => if p.1 == k then some p.2 else hGet t k

/-- Property write on a header object (`headers[k] = v` and each step of
`Object.assign`): replace the entry in place if the key exists, otherwise
append a new entry. -/
def hSet (m : HMap) (k v : String) : HMap :=
  match m with
  | [] => [(k, v)]
  | p :: t => if p.1 == k then (k, v) :: t else p :: hSet t k v

/-- Property deletion on a header object (`delete headers[k]`). -/
def hDelete (m : HMap) (k : String) : HMap :=
  match m with
  | [] => []
  | p :: t => if p.1 == k then hDelete t k else p :: hDelete t k

/-- Value of the last entry of `l` carrying key `k`, if any: the value that
survives a left-to-right `Object.assign` merge ("last applied wins"). -/
def lastVal (l : HMap) (k : String) : Option String :=
  match l with
  | [] => none
  | p :: t =>
    match lastVal t k with
    | some v => some v
    | none => if p.1 == k then some p.2 else none

/-- Models `buildForwardHeaders` (part_000 lines 43-64, proxy.js lines
43-64, s.js lines 40-61): copy the inbound headers, delete `host`, re-copy
`range` when the inbound request carries one, then apply the referer
override, the cookie override, and finally `Object.assign` with the
custom-header mapping.  `none` models a JavaScript `null`/`undefined`
argument; a supplied empty string is falsy in the source `if` guards. -/
def applyOptHeader (m : HMap) (k : String) (v : Option String) : HMap :=
  match v with
  | some s => if s == "" then m else hSet m k s
  | none => m

def buildForwardHeaders (reqHeaders : HMap) (queryHeaders : Option HMap)
    (cookieFromQuery refererFromQuery : Option String) : HMap :=
  let headers := hDelete reqHeaders "host"
  let headers := applyOptHeader headers "range" (hGet reqHeaders "range")
  let headers := applyOptHeader headers "referer" refererFromQuery
  let headers := applyOptHeader headers "cookie" cookieFromQuery
  match queryHeaders with
  | some qh => qh.foldl (fun m p => hSet m p.1 p.2) headers
  | none => headers

/-- JSON values, as produced by the platform function `JSON.parse`.  Numbers are
modelled as integers: the claims under verification are parametric in the
parsed value, so the model restricts the numeric grammar rather than modelling
IEEE floating point. -/
inductive Json where
  | null
  | bool (b : Bool)
  | num (n : Int)
  | str (s : String)
  | arr (elems : List Json)
  | obj (fields : List (String × Json))

/-- Opening-brace character, written by code point to keep it out of
string and character literals. -/
def lbrace : Char := Char.ofNat 123

/-- Closing-brace character. -/
def rbrace : Char := Char.ofNat 125

def isWsChar (c : Char) : Bool :=
  c == ' ' || c == '\t' || c == '\n' || c == '\r'

def skipWs : List Char → List Char
  | c :: cs => if isWsChar c then skipWs cs else c :: cs
  | [] => []

/-- Body of a JSON string literal, after the opening quote: consume up to
the closing quote, handling the common escapes. -/
def parseStringBody : List Char → List Char → Option (String × List Char)
  | [], _ => none
  | c :: rest, acc =>
    if c == '"' then some (String.mk acc.reverse, rest)
    else if c == '\\' then
      match rest with
      | [] => none
      | e :: rest2 =>
        let dec : Option Char :=
          if e == '"' then some '"'
          else if e == '\\' then some '\\'
          else if e == '/' then some '/'
          else if e == 'n' then some '\n'
          else if e == 't' then some '\t'
          else if e == 'r' then some '\r'
          else none
        match dec with
        | some d => parseStringBody rest2 (d :: acc)
        | none => none
    else parseStringBody rest (c :: acc)

def parseNatLoop : List Char → Nat → (Nat × List Char)
  | c :: cs, acc =>
    if c.isDigit then parseNatLoop cs (acc * 10 + (c.toNat - 48)) else (acc, c :: cs)
  | [], acc => (acc, [])

def parseNum : List Char → Option (Int × List Char)
  | '-' :: cs =>
    match cs with
    | c :: _ =>
      if c.isDigit then
        let r := parseNatLoop cs 0
        some (-(r.1 : Int), r.2)
      else none
    | [] => none
  | c :: cs =>
    if c.isDigit then
      let r := parseNatLoop (c :: cs) 0
      some ((r.1 : Int), r.2)
    else none
  | [] => none

mutual

/-- Recursive-descent JSON value parser (fuel-indexed). -/
def parseVal : Nat → List Char → Option (Json × List Char)
  | 0, _ => none
  | f + 1, cs0 =>
    match skipWs cs0 with
    | [] => none
    | c :: rest =>
      if c == '"' then
        (parseStringBody rest []).map (fun p => (Json.str p.1, p.2))
      else if c == '[' then
        match skipWs rest with
        | d :: rest2 =>
          if d == ']' then some (Json.arr [], rest2)
          else (parseArrItems f (d :: rest2) []).map (fun p => (Json.arr p.1, p.2))
        | [] => none
      else if c == lbrace then
        match skipWs rest with
        | d :: rest2 =>
          if d == rbrace then some (Json.obj [], rest2)
          else (parseObjItems f (d :: rest2) []).map (fun p => (Json.obj p.1, p.2))
        | [] => none
      else if c == 't' then
        match rest with
        | 'r' :: 'u' :: 'e' :: r => some (Json.bool true, r)
        | _ => none
      else if c == 'f' then
        match rest with
        | 'a' :: 'l' :: 's' :: 'e' :: r => some (Json.bool false, r)
        | _ => none
      else if c == 'n' then
        match rest with
        | 'u' :: 'l' :: 'l' :: r => some (Json.null, r)
        | _ => none
      else
        (parseNum (c :: rest)).map (fun p => (Json.num p.1, p.2))

def parseArrItems : Nat → List Char → List Json → Option (List Json × List Char)
  | 0, _, _ => none
  | f + 1, cs, acc =>
    match parseVal f cs with
    | none => none
    | some (v, rest) =>
      match skipWs rest with
      | ',' :: rest2 => parseArrItems f rest2 (v :: acc)
      | d :: rest2 => if d == ']' then some ((v :: acc).reverse, rest2) else none
      | [] => none

def parseObjItems : Nat → List Char → List (String × Json) →
    Option (List (String × Json) × List Char)
  | 0, _, _ => none
  | f + 1, cs, acc =>
    match skipWs cs with
    | c :: rest =>
      if c == '"' then
        match parseStringBody rest [] with
        | none => none
        | some (key, rest2) =>
          match skipWs rest2 with
          | ':' :: rest3 =>
            match parseVal f rest3 with
            | none => none
            | some (v, rest4) =>
              match skipWs rest4 with
              | ',' :: rest5 => parseObjItems f rest5 ((key, v) :: acc)
              | d :: rest5 =>
                if d == rbrace then some (((key, v) :: acc).reverse, rest5) else none
              | [] => none
          | _ => none
      else none
    | [] => none

end

/-- Models the platform function `JSON.parse` as a total function into `Option`:
`none` stands for a thrown `SyntaxError`.  The whole input must be consumed
up to trailing whitespace, as `JSON.parse` requires. -/
def jsParse (s : String) : Option Json :=
  match parseVal (2 * s.length + 2) s.data with
  | some (j, rest) => if skipWs rest = [] then some j else none
  | none => none

/-- Models `safeJsonParse` (part_000 lines 28-30, proxy.js lines 28-30,
s.js lines 25-27): `JSON.parse` with the exception turned into `null`. -/
def safeJsonParse (s : String) : Option Json :=
  jsParse s

def hexVal (c : Char) : Option Nat :=
  if c.isDigit then some (c.toNat - 48)
  else if 'A' ≤ c ∧ c ≤ 'F' then some (c.toNat - 55)
  else if 'a' ≤ c ∧ c ≤ 'f' then some (c.toNat - 87)
  else none

/-- Models the platform function `decodeURIComponent` on the percent-decoding
level: each `%` must be followed by two hex digits and decodes to the
denoted code point; a malformed escape throws (`none`).  Multi-byte UTF-8
sequence validation is not modelled. -/
def percentDecode : List Char → Option (List Char)
  | [] => some []
  | '%' :: h1 :: h2 :: rest =>
    match hexVal h1, hexVal h2 with
    | some a, some b => (percentDecode rest).map (fun r => Char.ofNat (16 * a + b) :: r)
    | _, _ => none
  | '%' :: _ => none
  | c :: rest => (percentDecode rest).map (fun r => c :: r)

def decodeURIComponentM (s : String) : Option String :=
  (percentDecode s.data).map String.mk

/-- Models JavaScript `String.prototype.includes` for a one-character
needle. -/
def jsIncludes (s : String) (c : Char) : Bool :=
  s.data.contains c

/-- Models `tryDecodeCookie` (part_000 lines 32-41, proxy.js lines 32-41,
s.js lines 29-38): attempt to percent-decode the cookie; keep the decoded
form only when it contains `=` or `;`, otherwise return the original, and
swallow decoding errors. -/
def tryDecodeCookie (cookie : String) : String :=
  if cookie == "" then cookie
  else
    match decodeURIComponentM cookie with
    | some decoded =>
      if jsIncludes decoded '=' || jsIncludes decoded ';' then decoded else cookie
    | none => cookie

/-- Outcome of the authorization gate for one request. -/
inductive AuthDecision where
  | pass
  | unauthorized (status : Nat) (body : Json)

/-- Result of running `apiKeyMiddleware` on one request: the gate decision
plus whether the middleware itself emitted the missing-secret warning while
handling this request. -/
structure AuthResult where
  warned : Bool
  decision : AuthDecision

/-- Models `process.env.API_KEY || null` (part_000 line 8): an empty
environment value is falsy and collapses to `null`. -/
def loadApiKey (env : Option String) : Option String :=
  match env with
  | some s => if s == "" then none else some s
  | none => none

/-- JavaScript `a || b` on two possibly-absent strings: `a` wins unless it
is `undefined` or the empty string. -/
def jsOr (a b : Option String) : Option String :=
  match a with
  | some x => if x == "" then b else some x
  | none => b

/-- The 401 body sent by the gate. -/
def authErrorBody : Json :=
  Json.obj [("error", Json.str "Unauthorized: missing or invalid API key")]

/-- Top-level field presence in a JSON object. -/
def hasKey (j : Json) (k : String) : Bool :=
  match j with
  | Json.obj fs => fs.any (fun p => p.1 == k)
  | _ => false

/-- Models `apiKeyMiddleware` (part_000 lines 11-21, proxy.js lines 11-21,
s.js lines 10-20): with no configured secret, warn and pass; otherwise take
`req.headers["x-api-key"] || req.query.api_key` and reject with a 401 JSON
body when the resulting key is falsy or differs from the secret. -/
def apiKeyMiddleware (apiKey : Option String) (headerKey queryKey : Option String) :
    AuthResult :=
  match apiKey with
  | none => { warned := true, decision := AuthDecision.pass }
  | some secret =>
    let key := jsOr headerKey queryKey
    match key with
    | none => { warned := false, decision := AuthDecision.unauthorized 401 authErrorBody }
    | some k =>
      if k == "" || k != secret then
        { warned := false, decision := AuthDecision.unauthorized 401 authErrorBody }
      else { warned := false, decision := AuthDecision.pass }

/-- Number of missing-secret warnings emitted while serving a list of
requests (each request given as its `x-api-key` header and `api_key` query
values). -/
def requestWarnings (apiKey : Option String)
    (reqs : List (Option String × Option String)) : Nat :=
  (reqs.map (fun r => if (apiKeyMiddleware apiKey r.1 r.2).warned then 1 else 0)).sum

/-- Models the startup log in the `app.listen` callback (part_000 lines
187-191): one warning at process start when the secret is missing. -/
def startupWarns (apiKey : Option String) : Bool :=
  apiKey.isNone

/-- State of the body-acquisition handlers for one request (part_000 lines
125-128): the collected buffer, the running size, the `aborted` flag, and
the bytes written to the outbound request stream once streaming started. -/
structure BState where
  collected : List Char
  size : Nat
  aborted : Bool
  streamed : List Char

def initialBState : BState :=
  { collected := [], size := 0, aborted := false, streamed := [] }

def MAX_BUFFER_FOR_PARSING : Nat := 5 * 1024 * 1024

/-- Models one firing of the `data` handler (part_000 lines 130-143).
After the threshold transition the chunk flows through `req.pipe` into the
outbound stream.  At the transition itself the source writes only the
previously collected bytes: the chunk that trips the threshold is neither
appended to `collected` nor re-emitted by the later `req.pipe`, so it is
not forwarded. -/
def onData (s : BState) (chunk : List Char) : BState :=
  if s.aborted then
    { s with streamed := s.streamed ++ chunk }
  else
    let size' := s.size + chunk.length
    if size' > MAX_BUFFER_FOR_PARSING then
      { s with aborted := true, size := size', streamed := s.collected }
    else
      { s with collected := s.collected ++ chunk, size := size' }

/-- Terminal event of the inbound body stream: normal end of input, or an
I/O error raised while reading. -/
inductive Terminal where
  | endOk
  | readErr

/-- Body representation handed to the upstream dispatcher from the buffered
path: a parsed JSON value (the `options.json` field, re-encoded by the
`request` library) or raw bytes (the `options.body` field). -/
inductive BodyRepr where
  | jsonVal (j : Json)
  | raw (bytes : List Char)

/-- An upstream dispatch issued by the handler: either the streaming
dispatch opened at the threshold transition, carrying every byte written to
the outbound request stream, or a buffered dispatch issued at end of
input. -/
inductive Dispatch where
  | stream (bytes : List Char)
  | buffered (b : BodyRepr)

/-- Observable outcome of the body-acquisition handlers for one request:
whether (and with what body) an upstream dispatch was issued, and the
client status set locally by the handler (`some 400` on a read error,
`none` when the client response is left to the response relay). -/
structure FetchBodyOutcome where
  dispatched : Option Dispatch
  clientStatus : Option Nat

/-- Models the buffered body path of `app.all("/fetch")` (part_000 lines
125-163): fold the `data` handler over the chunks, then apply the terminal
event.  On `end` without a prior transition, a JSON content type attempts
`JSON.parse` and falls back to the raw buffer; on a read error the handler
answers 400 (the `error` listener stays attached even after the
transition, when the streaming dispatch already exists). -/
def runBodyMachine (isJson : Bool) (chunks : List (List Char)) (t : Terminal) :
    FetchBodyOutcome :=
  let s := chunks.foldl onData initialBState
  match t with
  | Terminal.endOk =>
    if s.aborted then
      { dispatched := some (Dispatch.stream s.streamed), clientStatus := none }
    else
      let b : BodyRepr :=
        if isJson then
          match jsParse (String.mk s.collected) with
          | some j => BodyRepr.jsonVal j
          | none => BodyRepr.raw s.collected
        else BodyRepr.raw s.collected
      { dispatched := some (Dispatch.buffered b), clientStatus := none }
  | Terminal.readErr =>
    { dispatched := if s.aborted then some (Dispatch.stream s.streamed) else none,
      clientStatus := some 400 }

def methodsWithBody : List String := ["POST", "PUT", "PATCH", "DELETE"]

/-- Models JavaScript `String.prototype.toUpperCase` on the ASCII range. -/
def jsToUpper (s : String) : String :=
  String.mk (s.data.map Char.toUpper)

def takeUntilSemi : List Char → List Char
  | [] => []
  | c :: t => if c == ';' then [] else c :: takeUntilSemi t

/-- Models `header.split(";")[0]`: the content type up to its first
parameter separator. -/
def ctMain (ctHeader : String) : String :=
  String.mk (takeUntilSemi ctHeader.data)

/-- Eligibility test for the body-acquisition machine (part_000 lines
122-124): a body-bearing method together with a JSON or form-urlencoded
content type, parameters after `;` ignored. -/
def bodyMachineApplies (method ctHeader : String) : Bool :=
  let contentType := ctMain ctHeader
  methodsWithBody.contains (jsToUpper method) &&
    (contentType == "application/json" || contentType == "application/x-www-form-urlencoded")

def isJsonCT (ctHeader : String) : Bool :=
  ctMain ctHeader == "application/json"

/-- Models the body handling of `app.all("/fetch")` (part_000 lines
122-169): run the state machine when it applies, otherwise pipe the inbound
body straight through to a single streaming dispatch. -/
def handleFetchBody (method ctHeader : String) (chunks : List (List Char))
    (t : Terminal) : FetchBodyOutcome :=
  if bodyMachineApplies method ctHeader then
    runBodyMachine (isJsonCT ctHeader) chunks t
  else
    { dispatched := some (Dispatch.stream chunks.flatten), clientStatus := none }

/-- Total length in bytes of a chunked body. -/
def chunksLen (chunks : List (List Char)) : Nat :=
  (chunks.map List.length).sum

/-- Client response under construction by the response relay. -/
structure ClientRes where
  status : Nat
  headers : HMap

/-- Events observed on the outbound `request` stream. -/
inductive UpstreamEvent where
  | response (statusCode : Nat) (headers : HMap)
  | streamError

/-- Models `attachResponseForward` (part_000 lines 105-120, s.js lines
160-175): on the upstream `response` event copy every upstream header onto
the client response and set the upstream status code verbatim; on a
transport `error` event answer 502 when headers were not yet sent,
otherwise end the response unchanged. -/
def attachResponseForward (res : ClientRes) (headersSent : Bool)
    (e : UpstreamEvent) : ClientRes :=
  match e with
  | UpstreamEvent.response sc hs =>
    { status := sc, headers := hs.foldl (fun m p => hSet m p.1 p.2) res.headers }
  | UpstreamEvent.streamError =>
    if headersSent then res else { res with status := 502 }

/-- Models `validateStatus: () => true` of the axios variant (proxy.js line
103): no upstream status code is treated as an error by the HTTP client. -/
def validateStatus (_status : Nat) : Bool := true

/-- Query parameters of an inbound `/fetch` request; `none` models an
absent parameter. -/
structure FetchQuery where
  url : Option String
  cookie : Option String
  headersParam : Option String
  referer : Option String

/-- Result of the `/fetch` handler prologue: an immediate client error, or
an upstream dispatch against the target URL with the reconciled headers. -/
inductive FetchStart where
  | clientError (status : Nat) (msg : String)
  | dispatch (url : String) (headers : HMap)

/-- Custom-header mapping extracted from the `headers` query parameter
(part_000 line 90 together with lines 59-61): `safeJsonParse`, kept only
when the result is an object.  String-valued fields are modelled; fields of
other JSON types are outside the scope of the claims and dropped. -/
def parseCustomHeaders (s : String) : Option HMap :=
  match safeJsonParse s with
  | some (Json.obj fs) =>
    some (fs.filterMap (fun p =>
      match p.2 with
      | Json.str v => some (p.1, v)
      | _ => none))
  | _ => none

/-- Models the prologue of `app.all("/fetch")` (part_000 lines 82-103,
proxy.js lines 82-105): answer 400 when the `url` query parameter is falsy
and otherwise build the outbound headers for the dispatch; no outbound call
is constructed on the 400 path.  The source message text is
"Missing url parameter" (with quotes around url in the source). -/
def fetchHandler (reqHeaders : HMap) (q : FetchQuery) : FetchStart :=
  match q.url with
  | none => FetchStart.clientError 400 "Missing url parameter"
  | some u =>
    if u == "" then FetchStart.clientError 400 "Missing url parameter"
    else
      let cookie : Option String :=
        match q.cookie with
        | some c => if c == "" then none else some (tryDecodeCookie c)
        | none => none
      let customHeaders : Option HMap :=
        match q.headersParam with
        | some hs => if hs == "" then none else parseCustomHeaders hs
        | none => none
      let referer : Option String :=
        match q.referer with
        | some r => if r == "" then none else some r
        | none => none
      FetchStart.dispatch u (buildForwardHeaders reqHeaders customHeaders cookie referer)

theorem hGet_hSet_self (m : HMap) (k v : String) : hGet (hSet m k v) k = some v := by
  induction m with
  | nil => simp [hGet, hSet]
  | cons p t ih =>
    by_cases hp : p.1 == k
    · simp [hGet, hSet, hp]
    · simp [hGet, hSet, hp, ih]

theorem hGet_hSet_ne (m : HMap) (k v k' : String) (h : k' ≠ k) :
    hGet (hSet m k' v) k = hGet m k := by
  have hkk : (k' == k) = false := by simpa using h
  induction m with
  | nil => simp [hGet, hSet, hkk]
  | cons p t ih =>
    by_cases hp : p.1 == k'
    · have hp1 : p.1 = k' := by simpa using hp
      simp [hGet, hSet, hp, hkk, hp1]
    · simp [hGet, hSet, hp, ih]

theorem hGet_hDelete_self (m : HMap) (k : String) : hGet (hDelete m k) k = none := by
  induction m with
  | nil => simp [hGet, hDelete]
  | cons p t ih =>
    by_cases hp : p.1 == k
    · simp [hDelete, hp, ih]
    · simp [hGet, hDelete, hp, ih]

theorem hGet_hDelete_ne (m : HMap) (k k' : String) (h : k' ≠ k) :
    hGet (hDelete m k') k = hGet m k := by
  induction m with
  | nil => simp [hGet, hDelete]
  | cons p t ih =>
    by_cases hp : p.1 == k'
    · have hp1 : p.1 = k' := by simpa using hp
      have hk : (p.1 == k) = false := by rw [hp1]; simpa using h
      simp [hGet, hDelete, hp, hk, ih]
    · simp [hGet, hDelete, hp, ih]

theorem hGet_foldl_hSet (l : HMap) (m : HMap) (k : String) :
    hGet (l.foldl (fun acc p => hSet acc p.1 p.2) m) k =
      match lastVal l k with
      | some v => some v
      | none => hGet m k := by
  induction l generalizing m with
  | nil => simp [lastVal]
  | cons p t ih =>
    simp only [List.foldl_cons]
    rw [ih]
    cases hf : lastVal t k with
    | some v => simp [lastVal, hf]
    | none =>
      by_cases hp : p.1 == k
      · have hp1 : p.1 = k := by simpa using hp
        simp [lastVal, hf, hp, hp1, hGet_hSet_self]
      · have hp1 : p.1 ≠ k := by simpa using hp
        simp [lastVal, hf, hp, hGet_hSet_ne m k p.2 p.1 hp1]

theorem lastVal_eq_none (l : HMap) (k : String) (h : ∀ p ∈ l, p.1 ≠ k) :
    lastVal l k = none := by
  induction l with
  | nil => rfl
  | cons p t ih =>
    have hp : (p.1 == k) = false := by simpa using h p (by simp)
    have ht := ih (fun q hq => h q (by simp [hq]))
    simp [lastVal, ht, hp]

theorem hGet_foldl_hSet_not_mem (l : HMap) (m : HMap) (k : String)
    (h : ∀ p ∈ l, p.1 ≠ k) :
    hGet (l.foldl (fun acc p => hSet acc p.1 p.2) m) k = hGet m k := by
  rw [hGet_foldl_hSet, lastVal_eq_none l k h]

theorem hGet_applyOptHeader_ne (m : HMap) (k : String) (v : Option String)
    (k' : String) (h : k ≠ k') :
    hGet (applyOptHeader m k v) k' = hGet m k' := by
  cases v with
  | none => rfl
  | some s =>
    by_cases hs : s == ""
    · simp [applyOptHeader, hs]
    · simp [applyOptHeader, hs, hGet_hSet_ne m k' s k h]

theorem hGet_applyOptHeader_some (m : HMap) (k : String) (s : String)
    (h : s ≠ "") :
    hGet (applyOptHeader m k (some s)) k = some s := by
  have hs : (s == "") = false := by simpa using h
  simp [applyOptHeader, hs, hGet_hSet_self]

theorem onData_no_overflow (s : BState) (c : List Char) (hA : s.aborted = false)
    (h : s.size + c.length ≤ MAX_BUFFER_FOR_PARSING) :
    onData s c = { s with collected := s.collected ++ c, size := s.size + c.length } := by
  unfold onData
  rw [hA]
  simp only [Bool.false_eq_true, if_false]
  rw [if_neg]
  omega

theorem onData_overflow (s : BState) (c : List Char) (hA : s.aborted = false)
    (h : MAX_BUFFER_FOR_PARSING < s.size + c.length) :
    onData s c = { s with aborted := true, size := s.size + c.length,
                          streamed := s.collected } := by
  unfold onData
  rw [hA]
  simp only [Bool.false_eq_true, if_false]
  rw [if_pos]
  omega

theorem foldl_onData_no_overflow (chunks : List (List Char)) (s : BState)
    (hA : s.aborted = false)
    (h : s.size + chunksLen chunks ≤ MAX_BUFFER_FOR_PARSING) :
    chunks.foldl onData s =
      { s with collected := s.collected ++ chunks.flatten,
               size := s.size + chunksLen chunks } := by
  induction chunks generalizing s with
  | nil => simp [chunksLen]
  | cons c t ih =>
    have hlen : chunksLen (c :: t) = c.length + chunksLen t := by
      simp [chunksLen]
    have h1 : s.size + c.length ≤ MAX_BUFFER_FOR_PARSING := by
      rw [hlen] at h; omega
    rw [List.foldl_cons, onData_no_overflow s c hA h1]
    have hrest : s.size + c.length + chunksLen t ≤ MAX_BUFFER_FOR_PARSING := by
      rw [hlen] at h; omega
    rw [ih { s with collected := s.collected ++ c, size := s.size + c.length } hA hrest]
    simp only [hlen]
    simp [List.append_assoc]
    omega

theorem runBodyMachine_two_chunks_overflow (isJson : Bool) (a b : List Char)
    (h1 : a.length ≤ MAX_BUFFER_FOR_PARSING)
    (h2 : MAX_BUFFER_FOR_PARSING < a.length + b.length) :
    runBodyMachine isJson [a, b] Terminal.endOk =
      { dispatched := some (Dispatch.stream a), clientStatus := none } := by
  have e1 : onData initialBState a =
      { collected := a, size := a.length, aborted := false, streamed := [] } := by
    rw [onData_no_overflow initialBState a rfl (by simpa [initialBState] using h1)]
    simp [initialBState]
  have e2 : onData { collected := a, size := a.length, aborted := false, streamed := [] } b =
      { collected := a, size := a.length + b.length, aborted := true, streamed := a } := by
    rw [onData_overflow _ _ rfl (by simpa using h2)]
  simp [runBodyMachine, e1, e2]

theorem runBodyMachine_one_chunk_overflow_err (isJson : Bool) (a : List Char)
    (h : MAX_BUFFER_FOR_PARSING < a.length) :
    runBodyMachine isJson [a] Terminal.readErr =
      { dispatched := some (Dispatch.stream []), clientStatus := some 400 } := by
  have e1 : onData initialBState a =
      { collected := [], size := a.length, aborted := true, streamed := [] } := by
    rw [onData_overflow initialBState a rfl (by simpa [initialBState] using h)]
    simp [initialBState]
  simp [runBodyMachine, e1]

/-- Claim C1: the claim states that for a body-bearing request with JSON or
form content type whose body exceeds 5 MiB, the bytes written upstream
equal the exact original body.  The code violates its own intent
("streams large bodies without buffering"): the chunk that trips the
threshold is neither in the collected buffer written at the transition nor
re-emitted by `req.pipe`.  At a body of a 5242880-byte chunk followed by a
1-byte chunk, the upstream stream receives only the first chunk, which
differs from the full body. -/
theorem C1_code_bug_threshold_chunk_dropped :
    (handleFetchBody "POST" "application/json"
        [List.replicate 5242880 'x', ['y']] Terminal.endOk).dispatched
      = some (Dispatch.stream (List.replicate 5242880 'x')) ∧
    List.replicate 5242880 'x' ≠ List.replicate 5242880 'x' ++ ['y'] := by
  constructor
  · have hap : bodyMachineApplies "POST" "application/json" = true := by decide
    have hj : isJsonCT "application/json" = true := by decide
    unfold handleFetchBody
    rw [hap, hj, if_pos rfl]
    rw [runBodyMachine_two_chunks_overflow true (List.replicate 5242880 'x') ['y']
      (by rw [List.length_replicate, MAX_BUFFER_FOR_PARSING])
      (by rw [MAX_BUFFER_FOR_PARSING, List.length_replicate]; decide)]
  · intro hcontra
    have hlen := congrArg List.length hcontra
    rw [List.length_append, List.length_replicate, List.length_cons,
        List.length_nil] at hlen
    omega

/-- Claim C2, counterexample: the claim states that the outbound mapping
contains no host header regardless of which overrides are supplied, and in
particular never one equal to the inbound host header of the proxy itself.  A
custom-header override carrying a `host` key is re-added by the final
`Object.assign`, here with exactly the inbound host value. -/
theorem C2_counterexample_custom_host_reinserted :
    hGet (buildForwardHeaders [("host", "proxy.example")]
        (some [("host", "proxy.example")]) none none) "host"
      = some "proxy.example" := by
  rfl

/-- Claim C2, amended: the inbound host header is deleted before the
overrides are applied, so the outbound mapping contains no host header
whenever the custom-header mapping does not itself supply a `host` key;
a custom-header entry named `host` is re-added by the merge. -/
theorem C2_amended_no_host_unless_custom (reqHeaders : HMap) (qh : Option HMap)
    (cookie referer : Option String)
    (hq : ∀ m, qh = some m → ∀ p ∈ m, p.1 ≠ "host") :
    hGet (buildForwardHeaders reqHeaders qh cookie referer) "host" = none := by
  unfold buildForwardHeaders
  have base :
      hGet (applyOptHeader (applyOptHeader (applyOptHeader (hDelete reqHeaders "host")
          "range" (hGet reqHeaders "range")) "referer" referer) "cookie" cookie)
        "host" = none := by
    rw [hGet_applyOptHeader_ne _ _ _ _ (by decide),
        hGet_applyOptHeader_ne _ _ _ _ (by decide),
        hGet_applyOptHeader_ne _ _ _ _ (by decide),
        hGet_hDelete_self]
  cases qh with
  | none => exact base
  | some m =>
    rw [hGet_foldl_hSet_not_mem m _ "host" (hq m rfl)]
    exact base

/-- Claim C2, witness for the amended theorem at a concrete input. -/
theorem C2_witness :
    hGet (buildForwardHeaders [("host", "proxy.example"), ("accept", "video/mp4")]
        (some [("x-token", "abc")]) (some "sid=1") (some "https://r.example"))
      "host" = none := by
  exact C2_amended_no_host_unless_custom
    [("host", "proxy.example"), ("accept", "video/mp4")]
    (some [("x-token", "abc")]) (some "sid=1") (some "https://r.example")
    (by intro m hm p hp
        cases hm
        simp at hp
        simp [hp])

/-- Claim C3: for a body-bearing request with content type
`application/json` and a body of at most 5 MiB, the dispatched upstream
body is the structured `JSON.parse` value of the buffered bytes when they
parse (the `request` library re-encodes that value, preserving structure
and values), and is the raw buffered bytes unchanged when parsing fails;
no error status is produced for the client on either path. -/
theorem C3_json_body_reencoding (method : String) (chunks : List (List Char))
    (hm : methodsWithBody.contains (jsToUpper method) = true)
    (hsz : chunksLen chunks ≤ MAX_BUFFER_FOR_PARSING) :
    (∀ j, jsParse (String.mk chunks.flatten) = some j →
        (handleFetchBody method "application/json" chunks Terminal.endOk).dispatched
          = some (Dispatch.buffered (BodyRepr.jsonVal j))) ∧
    (jsParse (String.mk chunks.flatten) = none →
        (handleFetchBody method "application/json" chunks Terminal.endOk).dispatched
          = some (Dispatch.buffered (BodyRepr.raw chunks.flatten))) ∧
    (handleFetchBody method "application/json" chunks Terminal.endOk).clientStatus
      = none := by
  have hap : bodyMachineApplies method "application/json" = true := by
    unfold bodyMachineApplies
    rw [hm]
    rfl
  have hj : isJsonCT "application/json" = true := by decide
  have hfold := foldl_onData_no_overflow chunks initialBState rfl
    (by simpa [initialBState] using hsz)
  unfold handleFetchBody
  rw [hap, hj, if_pos rfl]
  unfold runBodyMachine
  rw [hfold]
  simp only [initialBState, List.nil_append]
  refine ⟨?_, ?_, ?_⟩
  · intro j hjp
    simp [hjp]
  · intro hjp
    simp [hjp]
  · simp

/-- Claim C3, witness: a one-chunk JSON body `1` is dispatched as the
parsed JSON number 1. -/
theorem C3_witness :
    (handleFetchBody "POST" "application/json" [['1']] Terminal.endOk).dispatched
      = some (Dispatch.buffered (BodyRepr.jsonVal (Json.num 1))) := by
  exact (C3_json_body_reencoding "POST" [['1']] (by decide) (by decide)).1
    (Json.num 1) (by rfl)

/-- Claim C4: for every upstream response event, the status code set on the
client response equals the upstream status code, for any status including
4xx and 5xx; and the `validateStatus` of the axios variant accepts every status,
so no upstream status is treated as a local error or translated to 502. -/
theorem C4_status_forwarded (res : ClientRes) (headersSent : Bool)
    (sc : Nat) (hs : HMap) :
    (attachResponseForward res headersSent (UpstreamEvent.response sc hs)).status = sc ∧
    validateStatus sc = true :=
  ⟨rfl, rfl⟩

/-- Claim C5, counterexample: the claim states that with no configured
secret the missing-secret warning is emitted once per startup, not once per
request.  The warning sits inside `apiKeyMiddleware`, so serving two
requests with no secret configured emits two warnings. -/
theorem C5_counterexample_warning_per_request :
    requestWarnings (loadApiKey none) [(none, none), (none, none)] = 2 := by
  rfl

/-- Claim C5, amended: when a secret is configured and the supplied key
(`x-api-key` header, falling back to the `api_key` query parameter) is
missing, empty, or different from the secret, the response is 401 with a
JSON body containing an `error` key; when no secret is configured every
request passes the gate, and the missing-secret warning is emitted at
startup and additionally by the middleware on every such request. -/
theorem C5_amended_auth_gate :
    (∀ s hv qv, (jsOr hv qv = none ∨ ∃ k, jsOr hv qv = some k ∧ (k = "" ∨ k ≠ s)) →
        (apiKeyMiddleware (some s) hv qv).decision
          = AuthDecision.unauthorized 401 authErrorBody) ∧
    hasKey authErrorBody "error" = true ∧
    (∀ hv qv, (apiKeyMiddleware none hv qv).decision = AuthDecision.pass ∧
        (apiKeyMiddleware none hv qv).warned = true) ∧
    startupWarns none = true := by
  refine ⟨?_, by rfl, ?_, by rfl⟩
  · intro s hv qv hk
    unfold apiKeyMiddleware
    rcases hk with hnone | ⟨k, hk, hbad⟩
    · rw [hnone]
    · rw [hk]
      rcases hbad with he | hne
      · simp [he]
      · have hb : (k != s) = true := by simpa using hne
        simp [hb]
  · intro hv qv
    exact ⟨rfl, rfl⟩

/-- Claim C5, witness: a mismatching header key against a configured secret
is rejected with the 401 JSON error body. -/
theorem C5_witness :
    (apiKeyMiddleware (some "secret1") (some "wrong") none).decision
      = AuthDecision.unauthorized 401 authErrorBody := by
  exact C5_amended_auth_gate.1 "secret1" (some "wrong") none
    (Or.inr ⟨"wrong", rfl, Or.inr (by decide)⟩)

/-- Claim C6, counterexample: the claim states that an inbound read error
in any state of the body machine yields a 400 and no upstream dispatch.
After the streaming transition the dispatch has already been opened: a
single chunk above the threshold followed by a read error leaves an issued
streaming dispatch alongside the 400. -/
theorem C6_counterexample_error_after_transition :
    (handleFetchBody "POST" "application/json" [List.replicate 5242881 'x']
        Terminal.readErr).dispatched = some (Dispatch.stream []) ∧
    (handleFetchBody "POST" "application/json" [List.replicate 5242881 'x']
        Terminal.readErr).clientStatus = some 400 := by
  have hap : bodyMachineApplies "POST" "application/json" = true := by decide
  have hrun := runBodyMachine_one_chunk_overflow_err
    (isJsonCT "application/json") (List.replicate 5242881 'x')
    (by rw [MAX_BUFFER_FOR_PARSING, List.length_replicate]; decide)
  unfold handleFetchBody
  rw [hap, if_pos rfl, hrun]
  exact ⟨rfl, rfl⟩

/-- Claim C6, amended: a read error while the machine is still collecting
(body so far within the 5 MiB ceiling) fails the request with a 400 and no
upstream dispatch occurs; a read error after the streaming transition still
produces the 400 answer, but the upstream dispatch has already been opened
at the transition. -/
theorem C6_amended_read_error (method ctHeader : String) (chunks : List (List Char))
    (hap : bodyMachineApplies method ctHeader = true) :
    (chunksLen chunks ≤ MAX_BUFFER_FOR_PARSING →
      (handleFetchBody method ctHeader chunks Terminal.readErr).clientStatus = some 400 ∧
      (handleFetchBody method ctHeader chunks Terminal.readErr).dispatched = none) ∧
    ((chunks.foldl onData initialBState).aborted = true →
      (handleFetchBody method ctHeader chunks Terminal.readErr).clientStatus = some 400 ∧
      (handleFetchBody method ctHeader chunks Terminal.readErr).dispatched =
        some (Dispatch.stream (chunks.foldl onData initialBState).streamed)) := by
  unfold handleFetchBody
  rw [hap, if_pos rfl]
  constructor
  · intro hsz
    have hfold := foldl_onData_no_overflow chunks initialBState rfl
      (by simpa [initialBState] using hsz)
    unfold runBodyMachine
    rw [hfold]
    simp [initialBState]
  · intro hab
    unfold runBodyMachine
    simp [hab]

/-- Claim C6, witness for the amended theorem: a small JSON body followed
by a read error yields a 400 with no dispatch. -/
theorem C6_witness :
    (handleFetchBody "POST" "application/json" [['a']] Terminal.readErr).clientStatus
      = some 400 ∧
    (handleFetchBody "POST" "application/json" [['a']] Terminal.readErr).dispatched
      = none := by
  exact (C6_amended_read_error "POST" "application/json" [['a']] (by decide)).1
    (by decide)

/-- Claim C7: the reconciled outbound headers obey the precedence order
inbound < referer-override < cookie-override < custom-header-override: a
key supplied in the custom mapping resolves to its last custom value over
any same-named cookie or referer override and over any inbound header, and
the cookie and referer overrides each win over the same-named inbound
header (when no higher-precedence custom entry names them). -/
theorem C7_header_precedence (reqHeaders : HMap) (qh : HMap)
    (cookie referer : Option String) :
    (∀ k, lastVal qh k ≠ none →
        hGet (buildForwardHeaders reqHeaders (some qh) cookie referer) k
          = lastVal qh k) ∧
    (∀ c, cookie = some c → c ≠ "" → (∀ p ∈ qh, p.1 ≠ "cookie") →
        hGet (buildForwardHeaders reqHeaders (some qh) cookie referer) "cookie"
          = some c) ∧
    (∀ r, referer = some r → r ≠ "" → (∀ p ∈ qh, p.1 ≠ "referer") →
        hGet (buildForwardHeaders reqHeaders (some qh) cookie referer) "referer"
          = some r) := by
  refine ⟨?_, ?_, ?_⟩
  · intro k hk
    unfold buildForwardHeaders
    rw [hGet_foldl_hSet]
    cases hlv : lastVal qh k with
    | some v => rfl
    | none => exact absurd hlv hk
  · intro c hc hce hq
    unfold buildForwardHeaders
    rw [hGet_foldl_hSet_not_mem qh _ "cookie" hq, hc]
    exact hGet_applyOptHeader_some _ "cookie" c hce
  · intro r hr hre hq
    unfold buildForwardHeaders
    rw [hGet_foldl_hSet_not_mem qh _ "referer" hq,
        hGet_applyOptHeader_ne _ "cookie" cookie "referer" (by decide), hr]
    exact hGet_applyOptHeader_some _ "referer" r hre

/-- Claim C7, witness at a concrete precedence conflict: the custom entry
overrides the same-named inbound header, and the cookie and referer
overrides replace the inbound values. -/
theorem C7_witness :
    hGet (buildForwardHeaders
        [("cookie", "inb"), ("referer", "inb"), ("x-mark", "inb")]
        (some [("x-mark", "custom")]) (some "sid=2") (some "https://ref.example"))
      "x-mark" = some "custom" ∧
    hGet (buildForwardHeaders
        [("cookie", "inb"), ("referer", "inb"), ("x-mark", "inb")]
        (some [("x-mark", "custom")]) (some "sid=2") (some "https://ref.example"))
      "cookie" = some "sid=2" ∧
    hGet (buildForwardHeaders
        [("cookie", "inb"), ("referer", "inb"), ("x-mark", "inb")]
        (some [("x-mark", "custom")]) (some "sid=2") (some "https://ref.example"))
      "referer" = some "https://ref.example" := by
  have h := C7_header_precedence
    [("cookie", "inb"), ("referer", "inb"), ("x-mark", "inb")]
    [("x-mark", "custom")] (some "sid=2") (some "https://ref.example")
  refine ⟨?_, ?_, ?_⟩
  · have := h.1 "x-mark" (by decide)
    simpa [lastVal] using this
  · exact h.2.1 "sid=2" rfl (by decide) (by decide)
  · exact h.2.2 "https://ref.example" rfl (by decide) (by decide)

/-- Claim C8: for every non-empty cookie string, decoding returns the
percent-decoded form when decoding succeeds and the decoded text contains
`=` or `;`, and returns the original string unchanged in every other case
(decoded text lacking both characters, or a decoding failure); the
operation is a total function and never raises to its caller. -/
theorem C8_cookie_decode (s : String) (hne : s ≠ "") :
    (∀ d, decodeURIComponentM s = some d →
        ((jsIncludes d '=' || jsIncludes d ';') = true → tryDecodeCookie s = d) ∧
        ((jsIncludes d '=' || jsIncludes d ';') = false → tryDecodeCookie s = s)) ∧
    (decodeURIComponentM s = none → tryDecodeCookie s = s) := by
  have hs : (s == "") = false := by simpa using hne
  constructor
  · intro d hd
    constructor <;> intro hc <;> simp [tryDecodeCookie, hs, hd, hc]
  · intro hd
    simp [tryDecodeCookie, hs, hd]

/-- Claim C8, witness: `a%3Db` decodes to `a=b`, which contains `=`, so the
decoded form is returned. -/
theorem C8_witness : tryDecodeCookie "a%3Db" = "a=b" := by
  exact ((C8_cookie_decode "a%3Db" (by decide)).1 "a=b" (by rfl)).1 (by rfl)

/-- Claim C9: an inbound `/fetch` request without the `url` query parameter
is answered 400 and the handler result is the client-error outcome, so no
outbound upstream call is constructed or dispatched. -/
theorem C9_missing_url_400 (reqHeaders : HMap) (q : FetchQuery)
    (h : q.url = none) :
    fetchHandler reqHeaders q = FetchStart.clientError 400 "Missing url parameter" := by
  unfold fetchHandler
  rw [h]

/-- Claim C9, witness at a concrete request with no query parameters. -/
theorem C9_witness :
    fetchHandler [] { url := none, cookie := none, headersParam := none, referer := none }
      = FetchStart.clientError 400 "Missing url parameter" :=
  C9_missing_url_400 [] _ rfl

/-- Claim C10: with a configured secret, a present non-empty `x-api-key`
header shadows the `api_key` query parameter: a mismatching header value is
rejected with 401 even when the query parameter equals the secret, and the
query parameter is consulted exactly when the header is absent or empty. -/
theorem C10_header_shadows_query :
    (∀ s hv qv, hv ≠ "" → hv ≠ s →
        (apiKeyMiddleware (some s) (some hv) qv).decision
          = AuthDecision.unauthorized 401 authErrorBody) ∧
    (∀ s qv, apiKeyMiddleware (some s) none qv
        = apiKeyMiddleware (some s) (some "") qv) ∧
    (∀ s, s ≠ "" → (apiKeyMiddleware (some s) none (some s)).decision
        = AuthDecision.pass) := by
  refine ⟨?_, ?_, ?_⟩
  · intro s hv qv h1 h2
    have hb : (hv == "") = false := by simpa using h1
    have hs : (hv != s) = true := by simpa using h2
    simp [apiKeyMiddleware, jsOr, hb, hs]
  · intro s qv
    simp [apiKeyMiddleware, jsOr]
  · intro s hs
    have hb : (s == "") = false := by simpa using hs
    simp [apiKeyMiddleware, jsOr, hb]

/-- Claim C10, witness: the header value `bad` is rejected although the
query parameter carries the configured secret. -/
theorem C10_witness :
    (apiKeyMiddleware (some "k1") (some "bad") (some "k1")).decision
      = AuthDecision.unauthorized 401 authErrorBody := by
  exact C10_header_shadows_query.1 "k1" "bad" (some "k1") (by decide) (by decide)

end UProxy
